/-
Verification of the argparse layer of the blockstack CLI
(src/argparse.js): the OptionParser (getCLIOpts), the
ArgumentResolver (getCommandArgs), the Validator (checkArgs with its
Ajv pattern checks), the HelpFormatter (formatHelpString) and the
ConfigLoader (loadConfig), shallowly embedded in Lean 4.

Strings are modelled by Lean `String` (a wrapper around `List Char`);
JavaScript string primitives used by the source (`slice`, `startsWith`,
`split`, `substring`) are embedded as operations on the underlying
character list.  JavaScript truthiness of a string value (used by
`if (argValue)`) is the test `v ≠ ""` on a non-null value.
-/
import Mathlib

namespace Argparse

/-! ### Data model

A `Param` is one entry of a command's `items` array in the CLI schema
(`CLI_ARGS.properties.<command>.items[i]`).  The source objects carry
`name`, `type` (always `"string"`), `realtype` (documentation only) and
an optional `pattern`.  `hasOwnProperty('name')` is modelled by `name`
being an `Option`; the pattern, when present, is modelled as the
decidable matcher of the source's regular expression. -/
structure Param where
  name : Option String
  realtype : String
  pattern : Option (String → Bool)

deriving instance DecidableEq for Except

/-- `CommandSpec` models one value of `CLI_ARGS.properties`: the
`items` array plus the `minItems` / `maxItems` arity bounds. -/
structure CommandSpec where
  items : List Param
  minItems : Nat
  maxItems : Nat

/-! ### ArgumentResolver: getCommandArgs (argparse.js lines 2084-2176) -/

/-- Embeds `argsList[i].startsWith('--')`. -/
def isKeywordTok (t : String) : Bool :=
  t.data.take 2 = ['-', '-']

/-- Embeds `argsList[i].slice(2)`. -/
def dropDashes (t : String) : String :=
  String.mk (t.data.drop 2)

/-- The inner `for (let j = 0; j < commandProps.length; j++)` loop of
`getCommandArgs` (lines 2108-2124): walk the command's parameters; on a
parameter whose `name` equals `argName`, return the error
`no value for argument` when no following token exists, otherwise
record the following token as `argValue` and keep scanning.  `acc` is
the running value of the mutable `argValue` (initially `null = none`);
`next` is `argsList[i+1]` when it exists. -/
def scanProps (argName : String) (tok : String) (next : Option String) :
    List Param → Option String → Except String (Option String)
  | [], acc => .ok acc
  | p :: ps, acc =>
    match p.name with
    | none => scanProps argName tok next ps acc
    | some n =>
      if n = argName then
        match next with
        | none => .error ("no value for argument " ++ tok)
        | some v => scanProps argName tok next ps (some v)
      else scanProps argName tok next ps acc

/-- The outer token scan of `getCommandArgs` (lines 2094-2142): a
left-to-right pass over `argsList` accumulating the keyword captures
`foundArgs` (an insertion-ordered object, modelled as an association
list) and the positional tokens `orderedArgs`.  A `--` token yields its
`argName`; a duplicate capture, a declared name with no following
token, and a falsy `argValue` (no declared name matched, or the
following token is the empty string) are the three error returns of the
source.  On a successful capture the scanner advances past the value
token (`i += 1`). -/
def scanTokens (props : List Param) (toks : List String)
    (foundArgs : List (String × String)) (orderedArgs : List String) :
    Except String (List (String × String) × List String) :=
  match toks with
  | [] => .ok (foundArgs, orderedArgs)
  | t :: rest =>
    if isKeywordTok t then
      let argName := dropDashes t
      if (foundArgs.lookup argName).isSome then
        .error ("duplicate argument " ++ t)
      else
        match rest with
        | [] =>
          match scanProps argName t none props none with
          | .error e => .error e
          | .ok (some v) =>
            -- unreachable: `scanProps` records no value when no following
            -- token exists; scanning the empty remainder returns the
            -- captures unchanged, so the terminal call is inlined
            if v ≠ "" then .ok (foundArgs ++ [(argName, v)], orderedArgs)
            else .error ("no such argument " ++ t)
          | .ok none => .error ("no such argument " ++ t)
        | next :: rest' =>
          match scanProps argName t (some next) props none with
          | .error e => .error e
          | .ok (some v) =>
            if v ≠ "" then
              scanTokens props rest' (foundArgs ++ [(argName, v)]) orderedArgs
            else
              .error ("no such argument " ++ t)
          | .ok none => .error ("no such argument " ++ t)
    else
      scanTokens props rest foundArgs (orderedArgs ++ [t])

/-- The merge loop of `getCommandArgs` (lines 2144-2170): walk the
declared parameters in order; a parameter captured by name emits its
keyword value, any other parameter consumes the next unused positional
token; when the positionals are exhausted the loop `break`s, dropping
any remaining parameters (keyword captures included). -/
def mergeArgs : List Param → List (String × String) → List String → List String
  | [], _, _ => []
  | p :: ps, foundArgs, orderedArgs =>
    match p.name with
    | none =>
      match orderedArgs with
      | [] => []
      | o :: os => o :: mergeArgs ps foundArgs os
    | some n =>
      match foundArgs.lookup n with
      | some v => v :: mergeArgs ps foundArgs orderedArgs
      | none =>
        match orderedArgs with
        | [] => []
        | o :: os => o :: mergeArgs ps foundArgs os

/-- `getCommandArgs` (lines 2084-2176), for a command whose `items`
list is `props`: scan the tokens, then merge keyword and positional
captures into the canonical ordered argument vector. -/
def getCommandArgs (props : List Param) (argsList : List String) :
    Except String (List String) :=
  match scanTokens props argsList [] [] with
  | .error e => .error e
  | .ok (foundArgs, orderedArgs) => .ok (mergeArgs props foundArgs orderedArgs)

/-- A three-parameter schema `[x, y, z]` (no value patterns; the
resolver never consults them). -/
def xyzProps : List Param :=
  [⟨some "x", "string", none⟩, ⟨some "y", "string", none⟩, ⟨some "z", "string", none⟩]

/-- A parameter list declares `argName` when some entry has a `name`
field equal to it (the membership test of the inner loop of
`getCommandArgs`). -/
def hasParamName (props : List Param) (argName : String) : Bool :=
  props.any fun p => p.name == some argName

theorem isKeywordTok_dashes (n : String) : isKeywordTok ("--" ++ n) = true := rfl

theorem dropDashes_dashes (n : String) : dropDashes ("--" ++ n) = n := rfl

theorem scanProps_none_of_has (argName tok : String) (props : List Param)
    (acc : Option String) (h : hasParamName props argName = true) :
    scanProps argName tok none props acc =
      .error ("no value for argument " ++ tok) := by
  induction props generalizing acc with
  | nil => simp [hasParamName] at h
  | cons p ps ih =>
    simp only [hasParamName, List.any_cons, Bool.or_eq_true, beq_iff_eq] at h
    match hp : p.name with
    | none =>
      simp only [hp, false_iff, reduceCtorEq] at h
      simp only [scanProps, hp]
      exact ih acc (by simpa [hasParamName] using h.resolve_left (by simp [hp]))
    | some n =>
      by_cases hn : n = argName
      · simp [scanProps, hp, hn]
      · simp only [scanProps, hp, if_neg hn]
        refine ih acc ?_
        rcases h with h | h
        · rw [hp] at h; cases h; exact absurd rfl hn
        · simpa [hasParamName] using h

theorem scanProps_some_stable (argName tok v : String) (props : List Param) :
    scanProps argName tok (some v) props (some v) = .ok (some v) := by
  induction props with
  | nil => rfl
  | cons p ps ih =>
    match hp : p.name with
    | none => simpa [scanProps, hp] using ih
    | some n =>
      by_cases hn : n = argName
      · simpa [scanProps, hp, hn] using ih
      · simpa [scanProps, hp, hn] using ih

theorem scanProps_some_of_has (argName tok v : String) (props : List Param)
    (acc : Option String) (h : hasParamName props argName = true) :
    scanProps argName tok (some v) props acc = .ok (some v) := by
  induction props generalizing acc with
  | nil => simp [hasParamName] at h
  | cons p ps ih =>
    simp only [hasParamName, List.any_cons, Bool.or_eq_true, beq_iff_eq] at h
    match hp : p.name with
    | none =>
      simp only [scanProps, hp]
      refine ih acc ?_
      rcases h with h | h
      · rw [hp] at h; cases h
      · simpa [hasParamName] using h
    | some n =>
      by_cases hn : n = argName
      · simp only [scanProps, hp, if_pos hn]
        exact scanProps_some_stable argName tok v ps
      · simp only [scanProps, hp, if_neg hn]
        refine ih acc ?_
        rcases h with h | h
        · rw [hp] at h; cases h; exact absurd rfl hn
        · simpa [hasParamName] using h

theorem scanTokens_duplicate (props : List Param) (foundArgs : List (String × String))
    (orderedArgs rest : List String) (name : String)
    (h : (foundArgs.lookup name).isSome = true) :
    scanTokens props (("--" ++ name) :: rest) foundArgs orderedArgs =
      .error ("duplicate argument " ++ ("--" ++ name)) := by
  simp [scanTokens, isKeywordTok_dashes, dropDashes_dashes, h]

theorem scanTokens_trailing_declared (props : List Param)
    (foundArgs : List (String × String)) (orderedArgs : List String) (name : String)
    (hdecl : hasParamName props name = true)
    (hnew : foundArgs.lookup name = none) :
    scanTokens props ["--" ++ name] foundArgs orderedArgs =
      .error ("no value for argument " ++ ("--" ++ name)) := by
  simp [scanTokens, isKeywordTok_dashes, dropDashes_dashes, hnew,
    scanProps_none_of_has name ("--" ++ name) props none hdecl]

theorem scanTokens_empty_value (props : List Param)
    (foundArgs : List (String × String)) (orderedArgs rest : List String)
    (name : String)
    (hdecl : hasParamName props name = true)
    (hnew : foundArgs.lookup name = none) :
    scanTokens props (("--" ++ name) :: "" :: rest) foundArgs orderedArgs =
      .error ("no such argument " ++ ("--" ++ name)) := by
  simp [scanTokens, isKeywordTok_dashes, dropDashes_dashes, hnew,
    scanProps_some_of_has name ("--" ++ name) "" props none hdecl]

/-! Step lemmas: one per branch of the token scan, used to drive
inductions over `scanTokens`. -/

theorem scanTokens_step_pos (props : List Param) (t : String) (rest : List String)
    (fA : List (String × String)) (oA : List String)
    (hkw : isKeywordTok t = false) :
    scanTokens props (t :: rest) fA oA = scanTokens props rest fA (oA ++ [t]) := by
  conv_lhs => rw [scanTokens]
  simp [hkw]

theorem scanTokens_step_dup (props : List Param) (t : String) (rest : List String)
    (fA : List (String × String)) (oA : List String)
    (hkw : isKeywordTok t = true)
    (hdup : (fA.lookup (dropDashes t)).isSome = true) :
    scanTokens props (t :: rest) fA oA = .error ("duplicate argument " ++ t) := by
  simp [scanTokens, hkw, hdup]

theorem scanTokens_step_nil_spErr (props : List Param) (t e : String)
    (fA : List (String × String)) (oA : List String)
    (hkw : isKeywordTok t = true)
    (hdup : (fA.lookup (dropDashes t)).isSome = false)
    (hsp : scanProps (dropDashes t) t none props none = .error e) :
    scanTokens props [t] fA oA = .error e := by
  simp [scanTokens, hkw, hdup, hsp]

theorem scanTokens_step_nil_spNone (props : List Param) (t : String)
    (fA : List (String × String)) (oA : List String)
    (hkw : isKeywordTok t = true)
    (hdup : (fA.lookup (dropDashes t)).isSome = false)
    (hsp : scanProps (dropDashes t) t none props none = .ok none) :
    scanTokens props [t] fA oA = .error ("no such argument " ++ t) := by
  simp [scanTokens, hkw, hdup, hsp]

theorem scanTokens_step_nil_spSome (props : List Param) (t v : String)
    (fA : List (String × String)) (oA : List String)
    (hkw : isKeywordTok t = true)
    (hdup : (fA.lookup (dropDashes t)).isSome = false)
    (hsp : scanProps (dropDashes t) t none props none = .ok (some v)) :
    scanTokens props [t] fA oA =
      if v ≠ "" then .ok (fA ++ [(dropDashes t, v)], oA)
      else .error ("no such argument " ++ t) := by
  simp only [scanTokens, hkw, if_true, hsp]
  simp [hdup]

theorem scanTokens_step_cons_spErr (props : List Param) (t u e : String)
    (rest : List String) (fA : List (String × String)) (oA : List String)
    (hkw : isKeywordTok t = true)
    (hdup : (fA.lookup (dropDashes t)).isSome = false)
    (hsp : scanProps (dropDashes t) t (some u) props none = .error e) :
    scanTokens props (t :: u :: rest) fA oA = .error e := by
  simp [scanTokens, hkw, hdup, hsp]

theorem scanTokens_step_cons_spNone (props : List Param) (t u : String)
    (rest : List String) (fA : List (String × String)) (oA : List String)
    (hkw : isKeywordTok t = true)
    (hdup : (fA.lookup (dropDashes t)).isSome = false)
    (hsp : scanProps (dropDashes t) t (some u) props none = .ok none) :
    scanTokens props (t :: u :: rest) fA oA = .error ("no such argument " ++ t) := by
  simp [scanTokens, hkw, hdup, hsp]

theorem scanTokens_step_cons_spSome (props : List Param) (t u v : String)
    (rest : List String) (fA : List (String × String)) (oA : List String)
    (hkw : isKeywordTok t = true)
    (hdup : (fA.lookup (dropDashes t)).isSome = false)
    (hsp : scanProps (dropDashes t) t (some u) props none = .ok (some v)) :
    scanTokens props (t :: u :: rest) fA oA =
      if v ≠ "" then scanTokens props rest (fA ++ [(dropDashes t, v)]) oA
      else .error ("no such argument " ++ t) := by
  conv_lhs => rw [scanTokens]
  simp [hkw, hdup, hsp]

/-- Every keyword capture the scanner ever records is a non-empty
string: the truthiness test `if (argValue)` filters out the empty
string before `foundArgs[argName] = argValue` runs. -/
theorem scanTokens_found_nonempty :
    ∀ (n : Nat) (toks : List String), toks.length ≤ n →
      ∀ (props : List Param) (fA : List (String × String)) (oA : List String)
        (found' : List (String × String)) (ordered' : List String),
        scanTokens props toks fA oA = .ok (found', ordered') →
        (∀ p ∈ fA, p.2 ≠ "") → ∀ p ∈ found', p.2 ≠ "" := by
  intro n
  induction n with
  | zero =>
    intro toks hlen props fA oA found' ordered' hok hinv
    have htoks : toks = [] := List.eq_nil_of_length_eq_zero (Nat.le_zero.mp hlen)
    subst htoks
    simp only [scanTokens, Except.ok.injEq, Prod.mk.injEq] at hok
    exact hok.1 ▸ hinv
  | succ n ih =>
    intro toks hlen props fA oA found' ordered' hok hinv
    cases toks with
    | nil =>
      simp only [scanTokens, Except.ok.injEq, Prod.mk.injEq] at hok
      exact hok.1 ▸ hinv
    | cons t rest =>
      cases hkw : isKeywordTok t with
      | false =>
        rw [scanTokens_step_pos props t rest fA oA hkw] at hok
        exact ih rest (by simp at hlen ⊢; omega) props fA (oA ++ [t])
          found' ordered' hok hinv
      | true =>
        cases hdup : (fA.lookup (dropDashes t)).isSome with
        | true =>
          rw [scanTokens_step_dup props t rest fA oA hkw hdup] at hok
          simp at hok
        | false =>
          have hext : ∀ v : String, v ≠ "" →
              ∀ p ∈ fA ++ [(dropDashes t, v)], p.2 ≠ "" := by
            intro v hv p hp
            rcases List.mem_append.mp hp with hp | hp
            · exact hinv p hp
            · simp only [List.mem_singleton] at hp
              rw [hp]
              exact hv
          cases rest with
          | nil =>
            cases hsp : scanProps (dropDashes t) t none props none with
            | error e =>
              rw [scanTokens_step_nil_spErr props t e fA oA hkw hdup hsp] at hok
              simp at hok
            | ok argValue =>
              cases argValue with
              | none =>
                rw [scanTokens_step_nil_spNone props t fA oA hkw hdup hsp] at hok
                simp at hok
              | some v =>
                rw [scanTokens_step_nil_spSome props t v fA oA hkw hdup hsp] at hok
                by_cases hv : v = ""
                · rw [if_neg (by simp [hv])] at hok
                  simp at hok
                · rw [if_pos hv] at hok
                  simp only [Except.ok.injEq, Prod.mk.injEq] at hok
                  exact hok.1 ▸ hext v hv
          | cons u rest' =>
            cases hsp : scanProps (dropDashes t) t (some u) props none with
            | error e =>
              rw [scanTokens_step_cons_spErr props t u e rest' fA oA hkw hdup hsp] at hok
              simp at hok
            | ok argValue =>
              cases argValue with
              | none =>
                rw [scanTokens_step_cons_spNone props t u rest' fA oA hkw hdup hsp] at hok
                simp at hok
              | some v =>
                rw [scanTokens_step_cons_spSome props t u v rest' fA oA hkw hdup hsp] at hok
                by_cases hv : v = ""
                · rw [if_neg (by simp [hv])] at hok
                  simp at hok
                · rw [if_pos hv] at hok
                  exact ih rest' (by simp at hlen ⊢; omega) props _ oA
                    found' ordered' hok (hext v hv)

/-- C1: resolving the token list `["a", "--y", "b", "c"]` against the
three-parameter schema `[x, y, z]` yields the canonical ordered vector
`["a", "b", "c"]`: the keyword value `b` fills parameter `y`'s slot,
the positionals `a` and `c` fill `x` and `z` in declared order, and the
positional that would have landed in `y`'s slot is skipped rather than
consumed by `y`. -/
theorem claim_C1_keyword_positional_merge :
    getCommandArgs xyzProps ["a", "--y", "b", "c"] = .ok ["a", "b", "c"] := by
  decide

/-- C7 counterexample: the token list `["--y", "--y"]` supplies the
`--y` keyword token twice, yet `getCommandArgs` does not fail with the
duplicate-argument error — the second `--y` is consumed as the *value*
of the first, the scan succeeds, and the merge then returns an empty
vector (the keyword capture is dropped because the first positional
slot finds no positional token and the merge loop breaks). -/
theorem claim_C7_counterexample :
    getCommandArgs xyzProps ["--y", "--y"] = .ok [] ∧
    getCommandArgs xyzProps ["--y", "--y"] ≠ .error "duplicate argument --y" := by
  decide

/-- C7 (amended): whenever the left-to-right scan reaches a `--name`
keyword token whose name has already been captured, resolution fails
with the duplicate-argument error, wherever in the token list that
happens and whatever follows; an occurrence consumed as a preceding
keyword's value is not scanned as a keyword token and does not
trigger the error. -/
theorem claim_C7_duplicate_argument (props : List Param)
    (foundArgs : List (String × String)) (orderedArgs rest : List String)
    (name : String)
    (h : (foundArgs.lookup name).isSome = true) :
    scanTokens props (("--" ++ name) :: rest) foundArgs orderedArgs =
      .error ("duplicate argument " ++ ("--" ++ name)) :=
  scanTokens_duplicate props foundArgs orderedArgs rest name h

theorem claim_C7_witness :
    scanTokens xyzProps ["--" ++ "y"] [("y", "b")] [] =
      .error ("duplicate argument " ++ ("--" ++ "y")) :=
  claim_C7_duplicate_argument xyzProps [("y", "b")] [] [] "y" (by decide)

/-- C6 (amended): when the scan reaches a *final* `--name` token whose
name matches a declared parameter and has not been captured before,
resolution fails with the missing-value error (`no value for argument`);
in particular `getCommandArgs props ["--name"]` so fails.  (A trailing
`--name` whose name matches no declared parameter instead fails with
the unknown-argument error `no such argument` — see the
counterexample.) -/
theorem claim_C6_missing_value (props : List Param)
    (foundArgs : List (String × String)) (orderedArgs : List String)
    (name : String)
    (hdecl : hasParamName props name = true)
    (hnew : foundArgs.lookup name = none) :
    scanTokens props ["--" ++ name] foundArgs orderedArgs =
      .error ("no value for argument " ++ ("--" ++ name)) :=
  scanTokens_trailing_declared props foundArgs orderedArgs name hdecl hnew

theorem claim_C6_witness :
    scanTokens xyzProps ["--" ++ "y"] [] [] =
      .error ("no value for argument " ++ ("--" ++ "y")) :=
  claim_C6_missing_value xyzProps [] [] "y" (by decide) (by decide)

/-- C10: a declared keyword flag `--name` immediately followed by an
empty-string token is not captured: the truthiness test `if (argValue)`
rejects the empty string and resolution fails with the
unknown-argument error (`no such argument`); consequently every
keyword capture of a successful scan is a non-empty string. -/
theorem claim_C10_empty_keyword_value :
    (∀ (props : List Param) (foundArgs : List (String × String))
       (orderedArgs rest : List String) (name : String),
       hasParamName props name = true →
       foundArgs.lookup name = none →
       scanTokens props (("--" ++ name) :: "" :: rest) foundArgs orderedArgs =
         .error ("no such argument " ++ ("--" ++ name))) ∧
    (∀ (props : List Param) (toks : List String)
       (found' : List (String × String)) (ordered' : List String),
       scanTokens props toks [] [] = .ok (found', ordered') →
       ∀ p ∈ found', p.2 ≠ "") := by
  constructor
  · intro props foundArgs orderedArgs rest name hdecl hnew
    exact scanTokens_empty_value props foundArgs orderedArgs rest name hdecl hnew
  · intro props toks found' ordered' hok
    exact scanTokens_found_nonempty toks.length toks le_rfl props [] [] found'
      ordered' hok (by simp)

theorem claim_C10_witness :
    scanTokens xyzProps ["--" ++ "y", ""] [] [] =
      .error ("no such argument " ++ ("--" ++ "y")) :=
  claim_C10_empty_keyword_value.1 xyzProps [] [] [] "y" (by decide) (by decide)

/-! ### ConfigLoader: loadConfig (argparse.js lines 2258-2283) -/

/-- The nested logging-configuration object (`LOG_CONFIG_DEFAULTS`,
lines 66-73). -/
structure LogConfig where
  level : String
  handleExceptions : Bool
  timestamp : Bool
  stringify : Bool
  colorize : Bool
  json : Bool
deriving DecidableEq

/-- The flat configuration object returned by `loadConfig`. -/
structure Config where
  blockstackAPIUrl : String
  blockstackNodeUrl : String
  broadcastServiceUrl : String
  utxoServiceUrl : String
  logConfig : LogConfig
deriving DecidableEq

def LOG_CONFIG_DEFAULTS : LogConfig :=
  ⟨"warn", true, true, true, true, true⟩

/-- `CONFIG_DEFAULTS` (lines 75-81): the mainnet defaults. -/
def CONFIG_DEFAULTS : Config :=
  ⟨"https://core.blockstack.org", "https://node.blockstack.org:6263",
   "https://broadcast.blockstack.org", "https://blockchain.info",
   LOG_CONFIG_DEFAULTS⟩

/-- `CONFIG_REGTEST_DEFAULTS` (lines 83-89). -/
def CONFIG_REGTEST_DEFAULTS : Config :=
  ⟨"http://localhost:16268", "http://localhost:16264",
   "http://localhost:16269", "http://localhost:18332",
   LOG_CONFIG_DEFAULTS⟩

def PUBLIC_TESTNET_HOST : String := "testnet.blockstack.org"

/-- `CONFIG_TESTNET_DEFAULTS` (lines 93-99): testnet endpoints with
debug-level logging. -/
def CONFIG_TESTNET_DEFAULTS : Config :=
  ⟨"http://" ++ PUBLIC_TESTNET_HOST ++ ":16268",
   "http://" ++ PUBLIC_TESTNET_HOST ++ ":16264",
   "http://" ++ PUBLIC_TESTNET_HOST ++ ":16269",
   "http://" ++ PUBLIC_TESTNET_HOST ++ ":18332",
   { LOG_CONFIG_DEFAULTS with level := "debug" }⟩

/-- A parsed config-file JSON object: a partial overlay of the
recognized configuration keys (`Object.assign` copies only the keys
present in the parsed object). -/
structure ConfigOverlay where
  blockstackAPIUrl : Option String := none
  blockstackNodeUrl : Option String := none
  broadcastServiceUrl : Option String := none
  utxoServiceUrl : Option String := none
  logConfig : Option LogConfig := none

/-- The shallow merge `Object.assign(configRet, configData)`
(line 2276). -/
def overlayConfig (base : Config) (o : ConfigOverlay) : Config :=
  ⟨o.blockstackAPIUrl.getD base.blockstackAPIUrl,
   o.blockstackNodeUrl.getD base.blockstackNodeUrl,
   o.broadcastServiceUrl.getD base.broadcastServiceUrl,
   o.utxoServiceUrl.getD base.utxoServiceUrl,
   o.logConfig.getD base.logConfig⟩

/-- `loadConfig` (lines 2258-2283).  The external file read
`JSON.parse(fs.readFileSync(configFile).toString())` is modelled by
its outcome `readResult`: `none` when the file at `configFile` is
missing, unreadable or malformed (the `try/catch` swallows the
exception, leaving the chosen defaults untouched), `some overlay`
when the read and parse succeed.  The `throw new Error` on an
unrecognized network selector is modelled as `Except.error`. -/
def loadConfig (readResult : Option ConfigOverlay) (networkType : String) :
    Except String Config :=
  if networkType ≠ "mainnet" ∧ networkType ≠ "testnet" ∧ networkType ≠ "regtest" then
    .error "Unregognized network"
  else
    let configRet :=
      if networkType = "mainnet" then CONFIG_DEFAULTS
      else if networkType = "regtest" then CONFIG_REGTEST_DEFAULTS
      else CONFIG_TESTNET_DEFAULTS
    match readResult with
    | none => .ok configRet
    | some configData => .ok (overlayConfig configRet configData)

/-- C8: for each of the three network selectors, `loadConfig` on a
missing, unreadable or malformed config file returns exactly that
network's built-in defaults, unmodified, and raises no error; an
unrecognized network selector is the only fatal case (it throws
whatever the read outcome is). -/
theorem claim_C8_config_defaults :
    loadConfig none "mainnet" = .ok CONFIG_DEFAULTS ∧
    loadConfig none "testnet" = .ok CONFIG_TESTNET_DEFAULTS ∧
    loadConfig none "regtest" = .ok CONFIG_REGTEST_DEFAULTS ∧
    (∀ (readResult : Option ConfigOverlay) (nt : String),
       nt ≠ "mainnet" → nt ≠ "testnet" → nt ≠ "regtest" →
       loadConfig readResult nt = .error "Unregognized network") := by
  refine ⟨by decide, by decide, by decide, ?_⟩
  intro readResult nt h1 h2 h3
  simp [loadConfig, h1, h2, h3]

theorem claim_C8_witness :
    loadConfig none "foonet" = .error "Unregognized network" :=
  claim_C8_config_defaults.2.2.2 none "foonet"
    (by decide) (by decide) (by decide)

/-! ### Value patterns (argparse.js lines 10-64)

Each `*_PATTERN` constant of the source is an anchored JavaScript
regular expression; Ajv tests a value with `RegExp.test`, so a value is
accepted exactly when the whole string (for anchored patterns) or some
substring (for the unanchored `.+`) matches.  Each matcher below is the
decidable transcription of one regex over the string's characters. -/

def isDigitChar (c : Char) : Bool := '0' ≤ c && c ≤ '9'

def isLowerChar (c : Char) : Bool := 'a' ≤ c && c ≤ 'z'

/-- `[0-9a-f]`. -/
def isHexChar (c : Char) : Bool := isDigitChar c || ('a' ≤ c && c ≤ 'f')

/-- The JavaScript `.` metacharacter: any character except a line
terminator (`\n`, `\r`, U+2028, U+2029). -/
def isDotChar (c : Char) : Bool :=
  c ≠ '\n' && c ≠ '\r' && c ≠ '\u2028' && c ≠ '\u2029'

/-- `[0-9a-z_.+-]`, the character class of `NAME_PATTERN`. -/
def isNameChar (c : Char) : Bool :=
  isDigitChar c || isLowerChar c || c = '_' || c = '.' || c = '+' || c = '-'

/-- `NAME_PATTERN = '^([0-9a-z_.+-]{3,37})$'` (line 10). -/
def matchesNamePattern (s : String) : Bool :=
  3 ≤ s.data.length && s.data.length ≤ 37 && s.data.all isNameChar

/-- `[0-9a-z_+-]`, the first character class of `SUBDOMAIN_PATTERN`
(no dot). -/
def isSubdomainChar (c : Char) : Bool :=
  isDigitChar c || isLowerChar c || c = '_' || c = '+' || c = '-'

/-- `SUBDOMAIN_PATTERN = '^([0-9a-z_+-]{1,37})\.([0-9a-z_.+-]{3,37})$'`
(line 56): some split at a literal dot with both sides in their
classes and length bounds (`RegExp.test` asks for the existence of a
match, which backtracking finds iff some split works). -/
def matchesSubdomainPattern (s : String) : Bool :=
  (List.range s.data.length).any fun i =>
    match s.data.drop i with
    | '.' :: b =>
      let a := s.data.take i
      1 ≤ a.length && a.length ≤ 37 && a.all isSubdomainChar &&
      3 ≤ b.length && b.length ≤ 37 && b.all isNameChar
    | _ => false

/-- `ADDRESS_CHARS` (line 16): base58 characters — digits without `0`,
uppercase without `I`/`O`, lowercase without `l`. -/
def isAddressChar (c : Char) : Bool :=
  ('1' ≤ c && c ≤ '9') ||
  ('A' ≤ c && c ≤ 'Z' && c ≠ 'I' && c ≠ 'O') ||
  ('a' ≤ c && c ≤ 'z' && c ≠ 'l')

/-- `ID_ADDRESS_PATTERN = '^ID-' + ADDRESS_CHARS{1,35} + '$'`
(line 23). -/
def matchesIdAddressPattern (s : String) : Bool :=
  match s.data with
  | 'I' :: 'D' :: '-' :: rest =>
    1 ≤ rest.length && rest.length ≤ 35 && rest.all isAddressChar
  | _ => false

/-- `URL_PATTERN = "^http[s]?://.+$"` (line 54). -/
def matchesUrlPattern (s : String) : Bool :=
  match s.data with
  | 'h' :: 't' :: 't' :: 'p' :: 's' :: ':' :: '/' :: '/' :: body =>
    1 ≤ body.length && body.all isDotChar
  | 'h' :: 't' :: 't' :: 'p' :: ':' :: '/' :: '/' :: body =>
    1 ≤ body.length && body.all isDotChar
  | _ => false

/-- `PATH_PATTERN = '^[/]+.+$'` (line 62): one or more slashes, then
at least one further character, none a line terminator. -/
def matchesPathPattern (s : String) : Bool :=
  (List.range s.data.length).any fun k =>
    1 ≤ k && (s.data.take k).all (fun c => c = '/') &&
    1 ≤ (s.data.drop k).length && (s.data.drop k).all isDotChar

/-- `PRIVATE_KEY_PATTERN = '^([0-9a-f]{64,66})$'` (line 28). -/
def matchesPrivateKeyPattern (s : String) : Bool :=
  64 ≤ s.data.length && s.data.length ≤ 66 && s.data.all isHexChar

/-- A `[0-9a-f]{64,66}` group of the multisig patterns. -/
def isHexKeyGroup (l : List Char) : Bool :=
  64 ≤ l.length && l.length ≤ 66 && l.all isHexChar

/-- Split a character list at every comma (the `,`-separated structure
of the multisig patterns). -/
def splitOnComma : List Char → List (List Char)
  | [] => [[]]
  | c :: rest =>
    if c = ',' then [] :: splitOnComma rest
    else
      match splitOnComma rest with
      | [] => [[c]]
      | g :: gs => (c :: g) :: gs

/-- The body `([0-9]+),([0-9a-f]{64,66},)*([0-9a-f]{64,66})` shared by
the multisig patterns: a non-empty run of digits, a comma, then one or
more comma-separated hex key groups. -/
def matchesMultisigBody (l : List Char) : Bool :=
  match splitOnComma l with
  | d :: ks =>
    1 ≤ d.length && d.all isDigitChar && 1 ≤ ks.length && ks.all isHexKeyGroup
  | [] => false

/-- `PRIVATE_KEY_MULTISIG_PATTERN` (line 36). -/
def matchesPrivateKeyMultisigPattern (s : String) : Bool :=
  matchesMultisigBody s.data

/-- `PRIVATE_KEY_SEGWIT_P2SH_PATTERN` (line 40): the multisig body
prefixed by the literal `segwit:p2sh:`. -/
def matchesPrivateKeySegwitP2SHPattern (s : String) : Bool :=
  match s.data with
  | 's' :: 'e' :: 'g' :: 'w' :: 'i' :: 't' :: ':' :: 'p' :: '2' :: 's' :: 'h' :: ':' :: rest =>
    matchesMultisigBody rest
  | _ => false

/-- `PRIVATE_KEY_PATTERN_ANY` (line 44): the alternation of the three
private-key patterns. -/
def matchesPrivateKeyAnyPattern (s : String) : Bool :=
  matchesPrivateKeyPattern s || matchesPrivateKeyMultisigPattern s ||
  matchesPrivateKeySegwitP2SHPattern s

/-- The `name_or_id_address` pattern of `gaia_dump_bucket` (line 313):
`ID_ADDRESS_PATTERN|NAME_PATTERN|SUBDOMAIN_PATTERN`. -/
def matchesNameOrIdAddressPattern (s : String) : Bool :=
  matchesIdAddressPattern s || matchesNamePattern s || matchesSubdomainPattern s

/-! ### Registry fragment and the Validator (checkArgs) -/

/-- `CLI_ARGS.properties.gaia_dump_bucket` (argparse.js lines
306-355): five parameters, the fourth (`backup_phrase`) declared with
no `pattern`; `minItems = maxItems = 5`. -/
def gaia_dump_bucket : CommandSpec where
  items :=
    [⟨some "name_or_id_address", "name_or_id_address", some matchesNameOrIdAddressPattern⟩,
     ⟨some "app_origin", "url", some matchesUrlPattern⟩,
     ⟨some "gaia_hub", "url", some matchesUrlPattern⟩,
     ⟨some "backup_phrase", "12_words_or_ciphertext", none⟩,
     ⟨some "dump_dir", "path", some matchesPathPattern⟩]
  minItems := 5
  maxItems := 5

/-- `CLI_ARGS.properties.register` (argparse.js lines 1279-1343):
`owner_key` uses `PRIVATE_KEY_PATTERN`, `payment_key` uses
`PRIVATE_KEY_PATTERN_ANY`, `gaia_hub` and `zonefile` have no pattern;
`minItems = 4`, `maxItems = 5`. -/
def register : CommandSpec where
  items :=
    [⟨some "blockstack_id", "on-chain-blockstack_id", some matchesNamePattern⟩,
     ⟨some "owner_key", "private_key", some matchesPrivateKeyPattern⟩,
     ⟨some "payment_key", "private_key", some matchesPrivateKeyAnyPattern⟩,
     ⟨some "gaia_hub", "url", none⟩,
     ⟨some "zonefile", "path", none⟩]
  minItems := 4
  maxItems := 5

/-- The fragment of the `CLI_ARGS.properties` registry that the claims
exercise (the full registry declares about fifty commands of exactly
this shape). -/
def CLI_ARGS : List (String × CommandSpec) :=
  [("gaia_dump_bucket", gaia_dump_bucket), ("register", register)]

/-- The Ajv validation step of `checkArgs` (lines 2229-2242):
`ajv.validate(CLI_ARGS, { commandName: args })` holds iff the argument
vector's length lies within `[minItems, maxItems]` and each element
with a corresponding tuple item matches that item's `pattern` when one
is declared (`type: 'string'` always holds for these string vectors;
`name` and `realtype` are unknown schema keywords that Ajv ignores;
items beyond the supplied arguments, and arguments beyond the declared
items, are unconstrained under draft-07 tuple validation). -/
def ajvValidate (spec : CommandSpec) (args : List String) : Bool :=
  spec.minItems ≤ args.length && args.length ≤ spec.maxItems &&
  (List.zip args spec.items).all fun vp =>
    match vp.2.pattern with
    | none => true
    | some m => m vp.1

/-- The result type of `checkArgs`: `checkArgsSuccessType` or
`checkArgsFailType` (lines 2181-2192). -/
inductive CheckResult where
  | success (command : String) (args : List String)
  | failure (error : String) (command : String) (usage : Bool)
deriving DecidableEq

/-- `checkArgs` (lines 2194-2249), parameterized by the registry it
closes over: fewer than three tokens is `No command given`; an
unregistered command name is `Unrecognized command`; an argument
resolution error is passed through; a failed Ajv validation is
`Invalid command arguments`; otherwise the command name and canonical
vector are returned.  Every branch returns a structured value — no
branch throws. -/
def checkArgsWith (registry : List (String × CommandSpec))
    (argList : List String) : CheckResult :=
  match argList with
  | _ :: _ :: commandName :: allCommandArgs =>
    match registry.lookup commandName with
    | none => .failure ("Unrecognized command '" ++ commandName ++ "'") commandName true
    | some commandInfo =>
      match getCommandArgs commandInfo.items allCommandArgs with
      | .error e => .failure e commandName true
      | .ok commandArgs =>
        if ajvValidate commandInfo commandArgs then
          .success commandName commandArgs
        else
          .failure "Invalid command arguments" commandName true
  | _ => .failure "No command given" "" true

/-- `checkArgs` over the registry fragment. -/
def checkArgs (argList : List String) : CheckResult :=
  checkArgsWith CLI_ARGS argList

/-- C6 counterexample: for the recognized command `gaia_dump_bucket`, a
token list ending (indeed consisting) in the keyword token `--bogus`
with no following token does *not* fail with the missing-value error:
because no declared parameter is named `bogus`, the inner parameter
loop never reaches the end-of-list check, `argValue` stays null, and
the unknown-argument error `no such argument` is returned instead. -/
theorem claim_C6_counterexample :
    getCommandArgs gaia_dump_bucket.items ["--bogus"] =
      .error "no such argument --bogus" ∧
    getCommandArgs gaia_dump_bucket.items ["--bogus"] ≠
      .error "no value for argument --bogus" := by
  decide

/-- C4 counterexample: `checkArgs` accepts a `gaia_dump_bucket`
invocation whose `backup_phrase` value is the *empty* string — a
parameter declared without a `valuePattern` is not restricted to
non-empty strings (Ajv checks only `type: 'string'`, which the empty
string satisfies). -/
theorem claim_C4_counterexample :
    checkArgs ["node", "cli", "gaia_dump_bucket", "hello.id",
      "https://sample.app", "https://hub.org", "", "/backups"] =
      .success "gaia_dump_bucket"
        ["hello.id", "https://sample.app", "https://hub.org", "", "/backups"] := by
  decide

/-- C4 (amended): a parameter declared without a `valuePattern` (the
`backup_phrase` parameter of `gaia_dump_bucket`) accepts *every*
string, the empty string included: validation never inspects such a
value. -/
theorem claim_C4_no_pattern_accepts_any (v : String) :
    ajvValidate gaia_dump_bucket
      ["hello.id", "https://sample.app", "https://hub.org", v, "/backups"] = true := rfl

/-- C9: `checkArgs` accepts a `register` invocation whose `owner_key`
is exactly 64 lowercase hex characters, and rejects — with the
`Invalid command arguments` failure — one of 63 hex characters and a
64-character value containing the non-hex character `g`. -/
theorem claim_C9_private_key_validation :
    checkArgs ["node", "cli", "register", "example.id",
      "136ff26efa5db6f06b28f9c8c7a0216a1a52598045162abfe435d13036154a1b",
      "136ff26efa5db6f06b28f9c8c7a0216a1a52598045162abfe435d13036154a1b",
      "https://hub.blockstack.org"] =
      .success "register"
        ["example.id",
         "136ff26efa5db6f06b28f9c8c7a0216a1a52598045162abfe435d13036154a1b",
         "136ff26efa5db6f06b28f9c8c7a0216a1a52598045162abfe435d13036154a1b",
         "https://hub.blockstack.org"] ∧
    checkArgs ["node", "cli", "register", "example.id",
      "136ff26efa5db6f06b28f9c8c7a0216a1a52598045162abfe435d13036154a1",
      "136ff26efa5db6f06b28f9c8c7a0216a1a52598045162abfe435d13036154a1b",
      "https://hub.blockstack.org"] =
      .failure "Invalid command arguments" "register" true ∧
    checkArgs ["node", "cli", "register", "example.id",
      "136ff26efa5db6f06b28f9c8c7a0216a1a52598045162abfe435d13036154a1g",
      "136ff26efa5db6f06b28f9c8c7a0216a1a52598045162abfe435d13036154a1b",
      "https://hub.blockstack.org"] =
      .failure "Invalid command arguments" "register" true := by
  refine ⟨by decide, by decide, by decide⟩

/-- C5: `checkArgs` never throws: for every registry and input list,
each failure is a structured result with `usage: true` and either the
empty command name (no command token) or the supplied command token;
each success carries the supplied command name together with the
resolved canonical vector, which passed validation. -/
theorem claim_C5_structured_result (registry : List (String × CommandSpec))
    (argList : List String) :
    (∀ e cmd u, checkArgsWith registry argList = .failure e cmd u →
       u = true ∧
       (cmd = "" ∨ ∃ h : 2 < argList.length, cmd = argList.get ⟨2, h⟩)) ∧
    (∀ cmd args, checkArgsWith registry argList = .success cmd args →
       ∃ (h : 2 < argList.length) (spec : CommandSpec),
         cmd = argList.get ⟨2, h⟩ ∧
         registry.lookup cmd = some spec ∧
         getCommandArgs spec.items (argList.drop 3) = .ok args ∧
         ajvValidate spec args = true) := by
  match argList with
  | [] | [_] | [_, _] =>
    refine ⟨?_, ?_⟩
    · intro e cmd u h
      simp only [checkArgsWith, CheckResult.failure.injEq] at h
      exact ⟨h.2.2.symm, Or.inl h.2.1.symm⟩
    · intro cmd args h
      simp [checkArgsWith] at h
  | a :: b :: commandName :: rest =>
    refine ⟨?_, ?_⟩
    · intro e cmd u h
      simp only [checkArgsWith] at h
      cases hlk : List.lookup commandName registry with
      | none =>
        simp only [hlk] at h
        simp only [CheckResult.failure.injEq] at h
        exact ⟨h.2.2.symm, Or.inr ⟨by simp, by simp [← h.2.1]⟩⟩
      | some spec =>
        simp only [hlk] at h
        cases hga : getCommandArgs spec.items rest with
        | error e2 =>
          simp only [hga] at h
          simp only [CheckResult.failure.injEq] at h
          exact ⟨h.2.2.symm, Or.inr ⟨by simp, by simp [← h.2.1]⟩⟩
        | ok cargs =>
          simp only [hga] at h
          by_cases hv : ajvValidate spec cargs = true
          · rw [if_pos hv] at h
            simp at h
          · rw [if_neg hv] at h
            simp only [CheckResult.failure.injEq] at h
            exact ⟨h.2.2.symm, Or.inr ⟨by simp, by simp [← h.2.1]⟩⟩
    · intro cmd args h
      simp only [checkArgsWith] at h
      cases hlk : List.lookup commandName registry with
      | none =>
        simp only [hlk] at h
        simp at h
      | some spec =>
        simp only [hlk] at h
        cases hga : getCommandArgs spec.items rest with
        | error e2 =>
          simp only [hga] at h
          simp at h
        | ok cargs =>
          simp only [hga] at h
          by_cases hv : ajvValidate spec cargs = true
          · rw [if_pos hv] at h
            simp only [CheckResult.success.injEq] at h
            obtain ⟨h1, h2⟩ := h
            refine ⟨by simp, spec, ?_, ?_, ?_, ?_⟩
            · simp [← h1]
            · rw [← h1]; exact hlk
            · rw [← h2]; exact hga
            · rw [← h2]; exact hv
          · rw [if_neg hv] at h
            simp at h

theorem claim_C5_witness :
    true = true ∧
      (("" : String) = "" ∨
        ∃ h : 2 < ([] : List String).length, ("" : String) = [].get ⟨2, h⟩) :=
  (claim_C5_structured_result CLI_ARGS []).1 "No command given" "" true (by decide)

/-! ### HelpFormatter: formatHelpString (argparse.js lines 1800-1839) -/

/-- JavaScript `String.split` on a single-character separator, over
the character list (empty trailing fields included, as in JS). -/
def splitOnChar (sep : Char) : List Char → List (List Char)
  | [] => [[]]
  | c :: rest =>
    if c = sep then [] :: splitOnChar sep rest
    else
      match splitOnChar sep rest with
      | [] => [[c]]
      | g :: gs => (c :: g) :: gs

/-- `s.split(sep)` for a one-character separator. -/
def strSplit (s : String) (sep : Char) : List String :=
  (splitOnChar sep s.data).map String.mk

/-- The whitespace-separated words of a line:
`lines[i].split(/ /).filter((word) => word.length > 0)` (line 1810). -/
def lineWords (line : String) : List String :=
  (strSplit line ' ').filter fun w => w.length > 0

/-- The literal-line test (line 1816): the first word is exactly `$`,
or the line's first four characters are spaces
(`lines[i].substring(0, 4) === '    '`).  A line with no words never
reaches this test (it is emitted as a blank line first). -/
def isLiteralLine (line : String) : Bool :=
  match lineWords line with
  | [] => false
  | w :: _ => w = "$" || line.data.take 4 = [' ', ' ', ' ', ' ']

/-- The word-wrapping loop for one line (lines 1822-1834): `cur` is
the last segment of the mutable `linebuf` (initially the indent
padding) and `acc` holds the completed segments in reverse.  A word
whose addition would push the current segment past `limit`
(`lastline.length + 1 + word.length > limit`) closes the segment and
starts a new one with the padding; every appended word carries the
trailing space of `linebuf += words[j] + ' '`.  (The source's
`words[j].length === 0` break is dead code: the filter removed empty
words.) -/
def wrapWords (pad : String) (limit : Nat) :
    List String → String → List String → List String
  | [], cur, acc => (cur :: acc).reverse
  | w :: ws, cur, acc =>
    if cur.length + 1 + w.length > limit then
      wrapWords pad limit ws (pad ++ w ++ " ") (cur :: acc)
    else
      wrapWords pad limit ws (cur ++ w ++ " ") acc

/-- The lines emitted by `formatHelpString`, one entry per
`\n`-terminated line of the output buffer `buf`: a line with no words
emits one blank line, a literal line is emitted verbatim, and every
other line is word-wrapped starting from the indent padding. -/
def formatHelpLines (indent limit : Nat) (helpString : String) : List String :=
  let pad := String.mk (List.replicate indent ' ')
  (strSplit helpString '\n').flatMap fun line =>
    match lineWords line with
    | [] => [""]
    | w :: ws =>
      if isLiteralLine line then [line]
      else wrapWords pad limit (w :: ws) pad []

/-- `formatHelpString` (lines 1800-1839): the concatenation of the
emitted lines, each `\n`-terminated. -/
def formatHelpString (indent limit : Nat) (helpString : String) : String :=
  String.join ((formatHelpLines indent limit helpString).map (fun l => l ++ "\n"))

/-- Every segment produced by the wrapping loop stays within `limit`,
provided the running segment and all previously closed segments do and
every remaining word fits in `limit - pad.length - 1` columns. -/
theorem wrapWords_le (pad : String) (limit : Nat) :
    ∀ (ws : List String) (cur : String) (acc : List String),
      cur.length ≤ limit →
      (∀ w ∈ ws, pad.length + 1 + w.length ≤ limit) →
      (∀ l ∈ acc, l.length ≤ limit) →
      ∀ l ∈ wrapWords pad limit ws cur acc, l.length ≤ limit := by
  intro ws
  induction ws with
  | nil =>
    intro cur acc hcur _ hacc l hl
    simp only [wrapWords, List.mem_reverse, List.mem_cons] at hl
    rcases hl with hl | hl
    · exact hl ▸ hcur
    · exact hacc l hl
  | cons w ws ih =>
    intro cur acc hcur hws hacc l hl
    rw [wrapWords] at hl
    by_cases hbr : cur.length + 1 + w.length > limit
    · rw [if_pos hbr] at hl
      refine ih (pad ++ w ++ " ") (cur :: acc) ?_ ?_ ?_ l hl
      · have hw := hws w (List.mem_cons_self w ws)
        have hsp : (" " : String).length = 1 := rfl
        simp only [String.length_append, hsp]
        omega
      · intro w' hw'
        exact hws w' (List.mem_cons_of_mem w hw')
      · intro l' hl'
        rcases List.mem_cons.mp hl' with h | h
        · exact h ▸ hcur
        · exact hacc l' h
    · rw [if_neg hbr] at hl
      refine ih (cur ++ w ++ " ") acc ?_ ?_ hacc l hl
      · have hsp : (" " : String).length = 1 := rfl
        simp only [String.length_append, hsp]
        omega
      · intro w' hw'
        exact hws w' (List.mem_cons_of_mem w hw')

/-- C3 counterexample: with indent 0 and column limit 5, the
single-word input line `abcdefgh` is not a literal line, yet the
formatter emits the line `"abcdefgh "` of length 9 — the wrap check
only breaks *before* a word, so a word wider than the available width
always produces an over-long output line.  (The leading empty output
line is the line break the formatter inserts before the word.) -/
theorem claim_C3_counterexample :
    formatHelpLines 0 5 "abcdefgh" = ["", "abcdefgh "] ∧
    isLiteralLine "abcdefgh" = false ∧
    5 < ("abcdefgh " : String).length := by
  decide

/-- C3 (amended): lines whose first word is `$` or which begin with
four spaces are emitted verbatim, and — provided every word of every
non-literal line fits within `limit - indent - 1` columns — every
other emitted line is at or below the column limit.  (Without the
width proviso the bound fails; see the counterexample.) -/
theorem claim_C3_wrap_bounded (indent limit : Nat) (s : String)
    (hwords : ∀ line ∈ strSplit s '\n', isLiteralLine line = false →
       ∀ w ∈ lineWords line, indent + 1 + w.length ≤ limit) :
    (∀ out ∈ formatHelpLines indent limit s,
       (out ∈ strSplit s '\n' ∧ isLiteralLine out = true) ∨ out.length ≤ limit) ∧
    (∀ line ∈ strSplit s '\n', isLiteralLine line = true →
       line ∈ formatHelpLines indent limit s) := by
  have hpad : (String.mk (List.replicate indent ' ')).length = indent := by
    simp [String.length]
  constructor
  · intro out hout
    simp only [formatHelpLines, List.mem_flatMap] at hout
    obtain ⟨line, hline, hout⟩ := hout
    split at hout
    · simp only [List.mem_singleton] at hout
      subst hout
      right
      simp
    · rename_i w ws hlw
      by_cases hlit : isLiteralLine line = true
      · rw [if_pos hlit] at hout
        simp only [List.mem_singleton] at hout
        subst hout
        exact Or.inl ⟨hline, hlit⟩
      · rw [if_neg hlit] at hout
        right
        have hlit' : isLiteralLine line = false := by
          simpa using hlit
        have hbound : ∀ w' ∈ lineWords line, indent + 1 + w'.length ≤ limit :=
          hwords line hline hlit'
        refine wrapWords_le (String.mk (List.replicate indent ' ')) limit
          (w :: ws) _ [] ?_ ?_ (by simp) out hout
        · have hw0 : indent + 1 + w.length ≤ limit :=
            hbound w (by rw [hlw]; exact List.mem_cons_self w ws)
          rw [hpad]
          omega
        · intro w' hw'
          have := hbound w' (by rw [hlw]; exact hw')
          rw [hpad]
          omega
  · intro line hline hlit
    simp only [formatHelpLines, List.mem_flatMap]
    refine ⟨line, hline, ?_⟩
    split
    · rename_i hlw
      rw [isLiteralLine] at hlit
      rw [hlw] at hlit
      cases hlit
    · rename_i w ws hlw
      rw [if_pos hlit]
      exact List.mem_singleton.mpr rfl

theorem claim_C3_witness :
    (∀ out ∈ formatHelpLines 2 12 "ab cd ef\n    lit\n$ pp",
       (out ∈ strSplit "ab cd ef\n    lit\n$ pp" '\n' ∧
         isLiteralLine out = true) ∨
       out.length ≤ 12) ∧
    (∀ line ∈ strSplit "ab cd ef\n    lit\n$ pp" '\n',
       isLiteralLine line = true →
       line ∈ formatHelpLines 2 12 "ab cd ef\n    lit\n$ pp") :=
  claim_C3_wrap_bounded 2 12 "ab cd ef\n    lit\n$ pp" (by decide)

/-! ### OptionParser: getCLIOpts (argparse.js lines 2022-2077) -/

/-- The state of one `optsTable` entry: `false` (declared boolean
flag, unseen), `true` (boolean flag seen), `null` (declared value
flag, unseen), a captured string value, or JavaScript `undefined` (a
value flag matched at the very end of the vector, where
`argvBuff[i+1]` does not exist). -/
inductive OptVal where
  | bfalse
  | btrue
  | noval
  | str (v : String)
  | undef
deriving DecidableEq

/-- `optsTable[c] = v` on a JavaScript object: overwrite in place when
the key exists (keys keep their first-insertion order), append
otherwise. -/
def setOpt (tbl : List (Char × OptVal)) (c : Char) (v : OptVal) :
    List (Char × OptVal) :=
  if tbl.any (fun p => p.1 = c) then
    tbl.map fun p => if p.1 = c then (c, v) else p
  else tbl ++ [(c, v)]

/-- The option-spec parse of `getCLIOpts` (lines 2028-2038): walk the
spec string; a `:` is skipped; a letter followed by `:` declares a
value flag (`null`), any other letter a boolean flag (`false`). -/
def buildOptsTable : List Char → List (Char × OptVal) → List (Char × OptVal)
  | [], tbl => tbl
  | c :: rest, tbl =>
    if c = ':' then buildOptsTable rest tbl
    else if rest.head? = some ':' then buildOptsTable rest (setOpt tbl c .noval)
    else buildOptsTable rest (setOpt tbl c .bfalse)

/-- One flag's scan of the buffer (lines 2040-2064): stop at a literal
`--`; at an exact `-<letter>` token, an entry still `false` toggles to
`true` and the token is blanked, while an entry in any other state
captures the *following* token as the value, blanking both positions
(at the end of the buffer the captured value is `undefined` and the
out-of-bounds blanking `argvBuff[i+1] = ''` appends a blank slot).
The loop then continues on the remaining buffer, so a later occurrence
of the same token can capture again. -/
def scanOpt (optTok : String) (buff : List String) (v : OptVal) :
    List String × OptVal :=
  match buff with
  | [] => ([], v)
  | t :: rest =>
    if t = "--" then (t :: rest, v)
    else if t = optTok then
      if v = .bfalse then
        let r := scanOpt optTok rest .btrue
        ("" :: r.1, r.2)
      else
        match rest with
        | [] => (["", ""], .undef)
        | u :: rest' =>
          let r := scanOpt optTok rest' (.str u)
          ("" :: "" :: r.1, r.2)
    else
      let r := scanOpt optTok rest v
      (t :: r.1, r.2)

/-- The outer flag loop of `getCLIOpts` (line 2040): scan the buffer
once per declared flag, in table order, threading the blanked buffer
through. -/
def runFlags : List (Char × OptVal) → List String →
    List (Char × OptVal) × List String
  | [], buff => ([], buff)
  | (c, v) :: rest, buff =>
    let r := scanOpt (String.mk ['-', c]) buff v
    let r2 := runFlags rest r.1
    ((c, r.2) :: r2.1, r2.2)

/-- The scan buffer after all flag scans. -/
def finalBuff (argv : List String) (opts : String) : List String :=
  (runFlags (buildOptsTable opts.data []) argv).2

/-- `getCLIOpts` (lines 2022-2077): the final flag table (the
source's default spec string is `'deitUxC:F:B:P:D:G:N:H:T:I:'`)
together with the remainder `_`: every non-blank token of the final
buffer other than a literal `--`, in buffer order. -/
def getCLIOpts (argv : List String) (opts : String) :
    List (Char × OptVal) × List String :=
  let r := runFlags (buildOptsTable opts.data []) argv
  (r.1, r.2.filter fun t => t != "" && t != "--")

/-- `B` arises from `A` by blanking entries in place, possibly with
extra blank slots appended past `A`'s end: every position of `B` holds
either `A`'s token, unmodified, or `""`. -/
def blankedFrom : List String → List String → Bool
  | [], bs => bs.all fun b => b == ""
  | _ :: _, [] => false
  | a :: as, b :: bs => (b == a || b == "") && blankedFrom as bs

theorem blankedFrom_refl : ∀ l : List String, blankedFrom l l = true := by
  intro l
  induction l with
  | nil => rfl
  | cons a as ih => simp [blankedFrom, ih]

theorem blankedFrom_all_blank :
    ∀ (B C : List String), (∀ b ∈ B, b = "") → blankedFrom B C = true →
      ∀ c ∈ C, c = "" := by
  intro B
  induction B with
  | nil =>
    intro C _ hBC c hc
    simp only [blankedFrom, List.all_eq_true, beq_iff_eq] at hBC
    exact hBC c hc
  | cons b bs ih =>
    intro C hB hBC c hc
    cases C with
    | nil => cases hc
    | cons c0 cs =>
      simp only [blankedFrom, Bool.and_eq_true, Bool.or_eq_true, beq_iff_eq] at hBC
      rcases List.mem_cons.mp hc with hc | hc
      · subst hc
        rcases hBC.1 with h | h
        · rw [h]; exact hB b (List.mem_cons_self b bs)
        · exact h
      · exact ih cs (fun x hx => hB x (List.mem_cons_of_mem b hx)) hBC.2 c hc

theorem blankedFrom_trans :
    ∀ (A B C : List String), blankedFrom A B = true → blankedFrom B C = true →
      blankedFrom A C = true := by
  intro A
  induction A with
  | nil =>
    intro B C hAB hBC
    simp only [blankedFrom, List.all_eq_true, beq_iff_eq] at hAB ⊢
    exact blankedFrom_all_blank B C hAB hBC
  | cons a as ih =>
    intro B C hAB hBC
    cases B with
    | nil => simp [blankedFrom] at hAB
    | cons b bs =>
      cases C with
      | nil => simp [blankedFrom] at hBC
      | cons c cs =>
        simp only [blankedFrom, Bool.and_eq_true, Bool.or_eq_true,
          beq_iff_eq] at hAB hBC ⊢
        refine ⟨?_, ih bs cs hAB.2 hBC.2⟩
        rcases hBC.1 with h | h
        · subst h
          exact hAB.1
        · exact Or.inr h

/-! Step lemmas for `scanOpt`, one per branch. -/

theorem scanOpt_step_ddash (optTok t : String) (rest : List String) (v : OptVal)
    (hdd : t = "--") :
    scanOpt optTok (t :: rest) v = (t :: rest, v) := by
  conv_lhs => rw [scanOpt.eq_def]
  simp [hdd]

theorem scanOpt_step_bool (optTok t : String) (rest : List String) (v : OptVal)
    (hdd : t ≠ "--") (hmt : t = optTok) (hbv : v = .bfalse) :
    scanOpt optTok (t :: rest) v =
      ("" :: (scanOpt optTok rest .btrue).1, (scanOpt optTok rest .btrue).2) := by
  subst hmt
  conv_lhs => rw [scanOpt.eq_def]
  simp [hdd, hbv]

theorem scanOpt_step_val_end (optTok t : String) (v : OptVal)
    (hdd : t ≠ "--") (hmt : t = optTok) (hbv : v ≠ .bfalse) :
    scanOpt optTok [t] v = (["", ""], .undef) := by
  subst hmt
  conv_lhs => rw [scanOpt.eq_def]
  simp [hdd, hbv]

theorem scanOpt_step_val (optTok t u : String) (rest' : List String) (v : OptVal)
    (hdd : t ≠ "--") (hmt : t = optTok) (hbv : v ≠ .bfalse) :
    scanOpt optTok (t :: u :: rest') v =
      ("" :: "" :: (scanOpt optTok rest' (.str u)).1,
        (scanOpt optTok rest' (.str u)).2) := by
  subst hmt
  conv_lhs => rw [scanOpt.eq_def]
  simp [hdd, hbv]

theorem scanOpt_step_skip (optTok t : String) (rest : List String) (v : OptVal)
    (hdd : t ≠ "--") (hmt : t ≠ optTok) :
    scanOpt optTok (t :: rest) v =
      (t :: (scanOpt optTok rest v).1, (scanOpt optTok rest v).2) := by
  conv_lhs => rw [scanOpt.eq_def]
  simp [hdd, hmt]

theorem scanOpt_blankedFrom (optTok : String) :
    ∀ (buff : List String) (v : OptVal),
      blankedFrom buff (scanOpt optTok buff v).1 = true := by
  have main : ∀ (n : Nat) (buff : List String) (v : OptVal), buff.length ≤ n →
      blankedFrom buff (scanOpt optTok buff v).1 = true := by
    intro n
    induction n with
    | zero =>
      intro buff v hlen
      have hb : buff = [] := List.eq_nil_of_length_eq_zero (Nat.le_zero.mp hlen)
      subst hb
      rfl
    | succ n ih =>
      intro buff v hlen
      cases buff with
      | nil => rfl
      | cons t rest =>
        by_cases hdd : t = "--"
        · rw [scanOpt_step_ddash optTok t rest v hdd]
          exact blankedFrom_refl _
        · by_cases hmt : t = optTok
          · by_cases hbv : v = OptVal.bfalse
            · rw [scanOpt_step_bool optTok t rest v hdd hmt hbv]
              have := ih rest .btrue (by simp at hlen ⊢; omega)
              simp [blankedFrom, this]
            · cases rest with
              | nil =>
                rw [scanOpt_step_val_end optTok t v hdd hmt hbv]
                simp [blankedFrom]
              | cons u rest' =>
                rw [scanOpt_step_val optTok t u rest' v hdd hmt hbv]
                have := ih rest' (.str u) (by simp at hlen ⊢; omega)
                simp [blankedFrom, this]
          · rw [scanOpt_step_skip optTok t rest v hdd hmt]
            have := ih rest v (by simp at hlen ⊢; omega)
            simp [blankedFrom, this]
  intro buff v
  exact main buff.length buff v le_rfl

theorem runFlags_blankedFrom :
    ∀ (tbl : List (Char × OptVal)) (buff : List String),
      blankedFrom buff (runFlags tbl buff).2 = true := by
  intro tbl
  induction tbl with
  | nil => intro buff; exact blankedFrom_refl buff
  | cons cv rest ih =>
    intro buff
    obtain ⟨c, v⟩ := cv
    simp only [runFlags]
    exact blankedFrom_trans buff _ _ (scanOpt_blankedFrom _ buff v) (ih _)

theorem blankedFrom_filter_sublist :
    ∀ (A B : List String), blankedFrom A B = true →
      List.Sublist (B.filter fun t => t != "" && t != "--") A := by
  intro A
  induction A with
  | nil =>
    intro B h
    simp only [blankedFrom, List.all_eq_true, beq_iff_eq] at h
    have hnil : (B.filter fun t => t != "" && t != "--") = [] := by
      refine List.filter_eq_nil_iff.mpr ?_
      intro b hb
      rw [h b hb]
      decide
    rw [hnil]
  | cons a as ih =>
    intro B h
    cases B with
    | nil => simp [blankedFrom] at h
    | cons b bs =>
      simp only [blankedFrom, Bool.and_eq_true, Bool.or_eq_true,
        beq_iff_eq] at h
      obtain ⟨hb, hrest⟩ := h
      by_cases hblank : b = ""
      · subst hblank
        rw [List.filter_cons]
        simp only [bne_self_eq_false, Bool.false_and, Bool.false_eq_true,
          if_neg, ite_false, reduceIte]
        exact List.Sublist.cons a (ih bs hrest)
      · have hba : b = a := by
          rcases hb with hb | hb
          · exact hb
          · exact absurd hb hblank
        subst hba
        rw [List.filter_cons]
        by_cases hp : (b != "" && b != "--") = true
        · rw [if_pos hp]
          exact List.Sublist.cons₂ b (ih bs hrest)
        · rw [if_neg hp]
          exact List.Sublist.cons b (ih bs hrest)

/-- C2 counterexample: the raw vector `[""]` against the flag spec
`d` — the empty-string token matches no declared flag and is consumed
by nothing, yet the remainder is empty: the final collection loop
drops every zero-length token, so an empty-string (or literal `--`)
input token never reaches the remainder. -/
theorem claim_C2_counterexample :
    (getCLIOpts [""] "d").2 = [] ∧ ("" : String) ≠ "-d" := by
  decide

/-- C2 (amended): the remainder is exactly the final scan buffer with
the blank and literal `--` tokens removed; the scans only ever blank
consumed tokens in place (never rewriting or reordering a kept token),
so the remainder is a sublist of the original vector — every consumed
(blanked) token is gone, every surviving token appears unmodified in
original relative order — and no remainder token is `""` or `--`
(unconsumed empty-string and `--` tokens are dropped, which is the
sole exception to the round-trip as originally stated). -/
theorem claim_C2_roundtrip (argv : List String) (opts : String) :
    (getCLIOpts argv opts).2 =
      (finalBuff argv opts).filter (fun t => t != "" && t != "--") ∧
    blankedFrom argv (finalBuff argv opts) = true ∧
    List.Sublist (getCLIOpts argv opts).2 argv ∧
    (∀ t ∈ (getCLIOpts argv opts).2, t ≠ "" ∧ t ≠ "--") := by
  refine ⟨rfl, runFlags_blankedFrom _ argv, ?_, ?_⟩
  · exact blankedFrom_filter_sublist argv _ (runFlags_blankedFrom _ argv)
  · intro t ht
    simp only [getCLIOpts, List.mem_filter, Bool.and_eq_true, bne_iff_ne] at ht
    exact ht.2

theorem claim_C2_witness :
    ("x" : String) ≠ "" ∧ ("x" : String) ≠ "--" :=
  (claim_C2_roundtrip ["-d", "x"] "d").2.2.2 "x" (by decide)

end Argparse
